import Mathlib

/-!
Shallow embedding of the scripts of the repository
mario-kart-world-download-proof-of-concept (download_mkw_music.py,
generate_download_urls.py, convert_to_alac.py, verify_downloads.py).

Strings are modelled as `List Char` (the scripts act on ASCII text; raw bytes
and decoded text are identified).  The filesystem is a map from paths to
optional file contents, HTTP responses and subprocess exit codes are supplied
by explicit environments, and the effect sequence of a run is recorded as a
trace of events.
-/

set_option autoImplicit false

/-- Python `str.isspace` restricted to the ASCII range: the characters removed
by `str.strip()` in `sanitize_filename` and matched by the whitespace class of
the scrape regex. -/
def isPySpace (c : Char) : Bool :=
  c == ' ' || c == '\t' || c == '\n' || c == '\r' || c == '\x0b' || c == '\x0c'

/-- The characters removed by `sanitize_filename` in all three scripts:
`invalid_chars = '<>:"/\\|?*'`. -/
def invalidChars : List Char :=
  ("<>:\"/\\|?*").toList

/-- Python `str.replace(c, d)` for single characters. -/
def replaceAllChar (c d : Char) (s : List Char) : List Char :=
  s.map (fun x => if x = c then d else x)

/-- The replacement loop of `sanitize_filename`: each invalid character is
replaced by an underscore. -/
def removeInvalid (s : List Char) : List Char :=
  invalidChars.foldl (fun acc c => replaceAllChar c '_' acc) s

/-- Removal of trailing Python whitespace (the right half of `str.strip()`). -/
def stripTrailing : List Char → List Char
  | [] => []
  | c :: rest =>
    let r := stripTrailing rest
    if r = [] && isPySpace c then [] else c :: r

/-- Python `str.strip()`: leading and trailing whitespace removed. -/
def pyStrip (s : List Char) : List Char :=
  stripTrailing (s.dropWhile isPySpace)

/-- Embedding of `sanitize_filename` (identical in download_mkw_music.py,
generate_download_urls.py and verify_downloads.py): replace each character of
`invalid_chars` with an underscore, then strip surrounding whitespace. -/
def sanitize_filename (s : List Char) : List Char :=
  pyStrip (removeInvalid s)

/- ### The scrape shared by the scripts -/

/-- Literal fragments of the scrape regex
`<tr id="s(\d+)">\s*<td[^>]*><a href="/song/\d+">([^<]+)</a>`
(identical in download_mkw_music.py, generate_download_urls.py and
verify_downloads.py). -/
def litTrOpen : List Char := ("<tr id=\"s").toList

def litQuoteGt : List Char := ("\">").toList

def litTd : List Char := ("<td").toList

def litAHref : List Char := ("<a href=\"/song/").toList

def litCloseA : List Char := ("</a>").toList

/-- Consume a literal prefix, as the regex engine does for a run of literal
characters. -/
def matchLit (lit s : List Char) : Option (List Char) :=
  if lit.isPrefixOf s then some (s.drop lit.length) else none

/-- Python `needle in haystack` on strings: substring containment. -/
def isSubstring (needle : List Char) : List Char → Bool
  | [] => needle.isEmpty
  | c :: rest => needle.isPrefixOf (c :: rest) || isSubstring needle rest

/-- One anchored match of the song-row regex at the start of `s`.  Every
quantifier of the pattern (`\d+`, `\s*`, `[^>]*`, `[^<]+`) is followed by a
character its class excludes, so greedy maximal munch is the unique match and
no backtracking is needed.  Returns the two capture groups (song id digits,
raw song name) and the rest of the input after the match. -/
def matchSongRow (s : List Char) : Option ((List Char × List Char) × List Char) :=
  (matchLit litTrOpen s).bind (fun s1 =>
  let digits1 := s1.takeWhile Char.isDigit
  if digits1.isEmpty then none else
  (matchLit litQuoteGt (s1.drop digits1.length)).bind (fun s2 =>
  (matchLit litTd (s2.drop (s2.takeWhile isPySpace).length)).bind (fun s3 =>
  (matchLit ('>' :: []) (s3.drop (s3.takeWhile (fun c => !(c == '>'))).length)).bind (fun s4 =>
  (matchLit litAHref s4).bind (fun s5 =>
  let digits2 := s5.takeWhile Char.isDigit
  if digits2.isEmpty then none else
  (matchLit litQuoteGt (s5.drop digits2.length)).bind (fun s6 =>
  let nm := s6.takeWhile (fun c => !(c == '<'))
  if nm.isEmpty then none else
  (matchLit litCloseA (s6.drop nm.length)).map (fun s7 =>
  ((digits1, nm), s7))))))))

/-- `re.findall` scan: at each position try the anchored match; on success emit
the capture groups and continue after the match, otherwise advance one
character.  The fuel argument bounds the number of scan steps; each step
consumes at least one character, so `s.length` fuel is exact. -/
def findAllAux : Nat → List Char → List (List Char × List Char)
  | 0, _ => []
  | _, [] => []
  | Nat.succ fuel, c :: rest =>
    match matchSongRow (c :: rest) with
    | some (caps, remaining) => caps :: findAllAux fuel remaining
    | none => findAllAux fuel rest

/-- All matches of the song-row regex in `s`, in order. -/
def findSongRows (s : List Char) : List (List Char × List Char) :=
  findAllAux s.length s

/-- Python `html.split(sep)[0]`: the prefix of the text before the first
occurrence of the separator. -/
def takeBeforeFirst (sep : List Char) : List Char → List Char
  | [] => []
  | c :: rest =>
    if sep.isPrefixOf (c :: rest) then [] else c :: takeBeforeFirst sep rest

/-- Python `str.replace(pat, rep)` on a nonempty pattern: non-overlapping
left-to-right replacement.  Fuel-driven; `s.length` fuel is exact. -/
def replaceAux (pat rep : List Char) : Nat → List Char → List Char
  | _, [] => []
  | 0, s => s
  | Nat.succ fuel, c :: rest =>
    if pat.isPrefixOf (c :: rest) then
      rep ++ replaceAux pat rep fuel ((c :: rest).drop pat.length)
    else c :: replaceAux pat rep fuel rest

def pyReplace (pat rep s : List Char) : List Char :=
  replaceAux pat rep s.length s

def hexVal (c : Char) : Option Nat :=
  if '0' ≤ c ∧ c ≤ '9' then some (c.toNat - 48)
  else if 'a' ≤ c ∧ c ≤ 'f' then some (c.toNat - 87)
  else if 'A' ≤ c ∧ c ≤ 'F' then some (c.toNat - 55)
  else none

/-- `urllib.parse.unquote` on the ASCII range: a percent sign followed by two
hex digits decodes to the character with that code, anything else is copied
verbatim (multi-byte UTF-8 sequences are outside the ASCII model). -/
def unquoteAux : Nat → List Char → List Char
  | _, [] => []
  | 0, s => s
  | Nat.succ fuel, '%' :: rest =>
    match rest with
    | h1 :: h2 :: rest2 =>
      match hexVal h1, hexVal h2 with
      | some a, some b => Char.ofNat (16 * a + b) :: unquoteAux fuel rest2
      | _, _ => '%' :: unquoteAux fuel rest
    | _ => '%' :: unquoteAux fuel rest
  | Nat.succ fuel, c :: rest => c :: unquoteAux fuel rest

def pyUnquote (s : List Char) : List Char :=
  unquoteAux s.length s

def entApos : List Char := ("&#039;").toList

def entAmp : List Char := ("&amp;").toList

/-- The name post-processing shared by the three scraping functions:
`unquote(song_name.replace('&#039;', "'").replace('&amp;', '&'))`. -/
def decodeName (n : List Char) : List Char :=
  pyUnquote (pyReplace entAmp ('&' :: []) (pyReplace entApos (Char.ofNat 39 :: []) n))

def gamePageUrl : List Char := ("https://smashcustommusic.net/game/5609").toList

def songPageUrlOf (sid : List Char) : List Char :=
  ("https://smashcustommusic.net/song/").toList ++ sid

def brstmUrlOf (sid : List Char) : List Char :=
  ("https://smashcustommusic.net/brstm/").toList ++ sid

def remixMarker : List Char := ("Remixes / Fanmade").toList

/-- Song record built by download_mkw_music.fetch_song_data. -/
structure Song where
  id : List Char
  name : List Char
  url : List Char
deriving DecidableEq

/-- Song record built by generate_download_urls.fetch_song_data. -/
structure GenSong where
  id : List Char
  name : List Char
  page_url : List Char
  download_url : List Char
deriving DecidableEq

namespace DownloadMkwMusic

/-- Embedding of `fetch_song_data` in download_mkw_music.py: the page text is
cut before the first occurrence of "Remixes / Fanmade" when that marker is
present, then song rows are extracted by the regex and each name is
HTML-unescaped and URL-unquoted. -/
def fetch_song_data (html : List Char) : List Song :=
  let main_songs_section :=
    if isSubstring remixMarker html then takeBeforeFirst remixMarker html else html
  (findSongRows main_songs_section).map (fun p =>
    { id := p.1, name := decodeName p.2, url := brstmUrlOf p.1 })

end DownloadMkwMusic

namespace GenerateDownloadUrls

/-- Embedding of `fetch_song_data` in generate_download_urls.py: the same
regex extraction and name decoding, applied to the whole page (no
"Remixes / Fanmade" cut). -/
def fetch_song_data (html : List Char) : List GenSong :=
  (findSongRows html).map (fun p =>
    { id := p.1, name := decodeName p.2, page_url := songPageUrlOf p.1,
      download_url := brstmUrlOf p.1 })

end GenerateDownloadUrls

/-- The identifier/name projection of a scraped song list (the data Claim C2
compares between the two scripts). -/
def dlIdNames (songs : List Song) : List (List Char × List Char) :=
  songs.map (fun s => (s.id, s.name))

def genIdNames (songs : List GenSong) : List (List Char × List Char) :=
  songs.map (fun s => (s.id, s.name))

/- ### Filesystem, HTTP environment, and the downloader -/

/-- The filesystem: a map from paths to the contents of the file at that path,
`none` when no file exists there. -/
def Fs : Type := List Char → Option (List Char)

def fsWrite (fs : Fs) (p c : List Char) : Fs :=
  fun q => if q = p then some c else fs q

def fsDelete (fs : Fs) (p : List Char) : Fs :=
  fun q => if q = p then none else fs q

structure HttpResp where
  contentType : List Char
  body : List Char

structure Request where
  url : List Char
  referer : List Char
  userAgent : List Char
deriving DecidableEq

/-- One observable effect of a downloader run. -/
inductive Event where
  | request (r : Request)
  | sleep (d : ℚ)
  | fileWrite (path : List Char) (content : List Char)
  | fileDelete (path : List Char)
deriving DecidableEq

/-- The effect environment of download_song: what each HTTP GET returns (an
exception payload or a response), and the value produced by
`random.random()`. -/
structure DlEnv where
  fetch : List Char → Except (List Char) HttpResp
  rand : ℚ

/-- The User-Agent installed on the session in `download_all_songs`. -/
def fixedUserAgent : List Char :=
  ("Mozilla/5.0 (Macintosh; Intel Mac OS X 10_15_7) AppleWebKit/537.36 (KHTML, like Gecko) Chrome/118.0.0.0 Safari/537.36").toList

/-- CPython `random.uniform(a, b) = a + (b - a) * random()`. -/
def pyUniform (a b r : ℚ) : ℚ := a + (b - a) * r

def brstmExt : List Char := (".brstm").toList

/-- The output path `output_dir / f"{sanitize_filename(song['name'])}.brstm"`. -/
def dlFilePath (output_dir name : List Char) : List Char :=
  output_dir ++ '/' :: (sanitize_filename name ++ brstmExt)

def skippedMsg (name : List Char) : List Char :=
  ("Skipped (already exists): ").toList ++ name

def failedExnMsg (name e : List Char) : List Char :=
  ("Failed: ").toList ++ name ++ (" - ").toList ++ e

def botFailMsg (name : List Char) : List Char :=
  ("Failed: ").toList ++ name ++ (" - Bot protection triggered").toList

def errorPageMsg (name : List Char) : List Char :=
  ("Failed: ").toList ++ name ++ (" - Got error page instead of file").toList

def downloadedMsg (name : List Char) : List Char :=
  ("Downloaded: ").toList ++ name

def ctTextHtml : List Char := ("text/html").toList

def sniffUnusual : List Char := ("unusual activity").toList

def sniffRobot : List Char := ("robot").toList

def sniffHtml : List Char := ("html").toList

structure DlResult where
  status : List Char
  fs : Fs
  events : List Event

/-- Embedding of `download_song`: skip when the output exists; otherwise fetch
the song page (referrer: the game page), sleep `uniform(1.0, 3.0)`, fetch the
BRSTM URL (referrer: the song page), sniff HTML bot-protection responses,
write the body, and delete the file again when it is small and looks like an
HTML page.  Any fetch error is caught and turned into a Failed status. -/
def download_song (song : Song) (output_dir : List Char) (env : DlEnv) (fs : Fs) : DlResult :=
  let filepath := dlFilePath output_dir song.name
  if (fs filepath).isSome then
    { status := skippedMsg song.name, fs := fs, events := [] }
  else
    let song_page_url := songPageUrlOf song.id
    let req1 : Request :=
      { url := song_page_url, referer := gamePageUrl, userAgent := fixedUserAgent }
    match env.fetch song_page_url with
    | Except.error e =>
      { status := failedExnMsg song.name e, fs := fs, events := Event.request req1 :: [] }
    | Except.ok _ =>
      let d := pyUniform 1 3 env.rand
      let req2 : Request :=
        { url := song.url, referer := song_page_url, userAgent := fixedUserAgent }
      match env.fetch song.url with
      | Except.error e =>
        { status := failedExnMsg song.name e, fs := fs,
          events := Event.request req1 :: Event.sleep d :: Event.request req2 :: [] }
      | Except.ok resp =>
        if (isSubstring ctTextHtml resp.contentType
            && ((isSubstring sniffUnusual (resp.body.take 500))
                || (isSubstring sniffRobot (resp.body.take 500)))) then
          { status := botFailMsg song.name, fs := fs,
            events := Event.request req1 :: Event.sleep d :: Event.request req2 :: [] }
        else
          let fs2 := fsWrite fs filepath resp.body
          if (decide (resp.body.length < 1000)
              && (isSubstring sniffHtml (resp.body.map Char.toLower))) then
            { status := errorPageMsg song.name, fs := fsDelete fs2 filepath,
              events := Event.request req1 :: Event.sleep d :: Event.request req2
                :: Event.fileWrite filepath resp.body :: Event.fileDelete filepath :: [] }
          else
            { status := downloadedMsg song.name, fs := fs2,
              events := Event.request req1 :: Event.sleep d :: Event.request req2
                :: Event.fileWrite filepath resp.body :: [] }

def outputDirName : List Char := ("mkw_music_brstm").toList

/-- Sequential processing of the song list: with one worker the futures of
`download_all_songs` complete in submission order, each item exactly once. -/
def downloadLoop (env : DlEnv) : List Song → Fs → List (List Char) × Fs
  | [], fs => ([], fs)
  | song :: rest, fs =>
    let r := download_song song outputDirName env fs
    let next := downloadLoop env rest r.fs
    (r.status :: next.1, next.2)

structure DlRun where
  results : List (List Char)
  fs : Fs
  maxWorkers : Nat

/-- Embedding of `download_all_songs(songs, max_workers=1)`: the thread-pool
size defaults to 1; the returned results are the per-song status strings the
loop prints. -/
def download_all_songs (songs : List Song) (env : DlEnv) (fs : Fs)
    (max_workers : Nat := 1) : DlRun :=
  let fin := downloadLoop env songs fs
  { results := fin.1, fs := fin.2, maxWorkers := max_workers }

/-- The call `download_all_songs(songs)` made by `main()` (no override of
`max_workers`). -/
def main_download_call (songs : List Song) (env : DlEnv) (fs : Fs) : DlRun :=
  download_all_songs songs env fs

/-- The referrers carried by the requests a run sent to a given audio-file
URL. -/
def audioReferers (r : DlResult) (audioUrl : List Char) : List (List Char) :=
  r.events.filterMap (fun e =>
    match e with
    | Event.request req => if req.url = audioUrl then some req.referer else none
    | _ => none)

/- ### The converter (convert_to_alac.py) -/

/-- Final path component of a path. -/
def afterLastSlash (p : List Char) : List Char :=
  (p.reverse.takeWhile (fun c => !(c == '/'))).reverse

/-- Directory part of a path, including the trailing slash. -/
def dirPrefix (p : List Char) : List Char :=
  (p.reverse.dropWhile (fun c => !(c == '/'))).reverse

/-- Python `pathlib.Path.stem`: the final component without its last suffix (a
dot in first position opens no suffix). -/
def stemOf (p : List Char) : List Char :=
  let nm := afterLastSlash p
  match nm.reverse.dropWhile (fun c => !(c == '.')) with
  | [] => nm
  | _ :: rest => if rest = [] then nm else rest.reverse

/-- Python `pathlib.Path.with_suffix`: same directory and stem, new suffix. -/
def withSuffix (p suf : List Char) : List Char :=
  dirPrefix p ++ stemOf p ++ suf

def wavExt : List Char := (".wav").toList

def m4aExt : List Char := (".m4a").toList

def outputDirAlac : List Char := ("mkw_music_alac").toList

/-- The exit codes of the two external binaries (as functions of the argument
paths) and whether a partial WAV file is left behind by a failed vgmstream
run. -/
structure ConvEnv where
  vgmExit : List Char → List Char → Nat
  ffmpegExit : List Char → List Char → Nat
  wavLeftover : Bool

/-- One external-process effect of a `convert_file` task. -/
inductive ConvEvent where
  | runVgm (outWav input : List Char)
  | runFfmpeg (inWav output : List Char)
  | unlinkWav (p : List Char)
deriving DecidableEq

def convertedMsg (file_index total_files : Nat) (basename : List Char) : List Char :=
  ("[").toList ++ (toString file_index).toList ++ ("/").toList
    ++ (toString total_files).toList ++ ("] ✅ Converted: ").toList ++ basename

def convFailedMsg (file_index total_files : Nat) (basename : List Char) : List Char :=
  ("[").toList ++ (toString file_index).toList ++ ("/").toList
    ++ (toString total_files).toList ++ ("] ❌ Failed: ").toList ++ basename

/-- Embedding of `convert_file`: run vgmstream-cli into a temporary WAV, then
ffmpeg into the ALAC output, then delete the WAV; a `CalledProcessError` from
either `subprocess.run(check=True)` is caught, the WAV deleted if present, and
a Failed status returned.  A non-zero vgmstream exit raises before ffmpeg is
ever invoked. -/
def convert_file (brstm_path output_path : List Char) (file_index total_files : Nat)
    (env : ConvEnv) : List Char × List ConvEvent :=
  let basename := stemOf brstm_path
  let temp_wav := withSuffix output_path wavExt
  if env.vgmExit temp_wav brstm_path = 0 then
    if env.ffmpegExit temp_wav output_path = 0 then
      (convertedMsg file_index total_files basename,
        ConvEvent.runVgm temp_wav brstm_path :: ConvEvent.runFfmpeg temp_wav output_path
          :: ConvEvent.unlinkWav temp_wav :: [])
    else
      (convFailedMsg file_index total_files basename,
        ConvEvent.runVgm temp_wav brstm_path :: ConvEvent.runFfmpeg temp_wav output_path
          :: ConvEvent.unlinkWav temp_wav :: [])
  else
    (convFailedMsg file_index total_files basename,
      ConvEvent.runVgm temp_wav brstm_path ::
        (if env.wavLeftover then ConvEvent.unlinkWav temp_wav :: [] else []))

/-- The output path `Path(OUTPUT_DIR) / f"{brstm_path.stem}.m4a"`. -/
def alacOutPath (brstm_path : List Char) : List Char :=
  outputDirAlac ++ '/' :: (stemOf brstm_path ++ m4aExt)

/-- The task list built by the skip loop of `convert_files_parallel`: inputs
whose output file already exists are skipped, the rest are submitted. -/
def convTasks (fs : Fs) : List (List Char) → List (List Char × List Char)
  | [] => []
  | p :: rest =>
    if (fs (alacOutPath p)).isSome then convTasks fs rest
    else (p, alacOutPath p) :: convTasks fs rest

def convSkipped (fs : Fs) : List (List Char) → Nat
  | [] => 0
  | p :: rest =>
    if (fs (alacOutPath p)).isSome then convSkipped fs rest + 1 else convSkipped fs rest

structure ConvPlan where
  skippedCount : Nat
  tasks : List (List Char × List Char)
  maxWorkers : Nat

/-- Embedding of the planning part of `convert_files_parallel`: which inputs
are skipped, which tasks are submitted, and the pool size
`ProcessPoolExecutor(max_workers=cpu_count())`. -/
def convert_files_parallel (brstm_files : List (List Char)) (fs : Fs)
    (cpu_count : Nat) : ConvPlan :=
  { skippedCount := convSkipped fs brstm_files,
    tasks := convTasks fs brstm_files,
    maxWorkers := cpu_count }

/-- The external-process invocations in a trace (unlink is a filesystem call,
not a process invocation). -/
def procInvocations (evs : List ConvEvent) : List ConvEvent :=
  evs.filter (fun e =>
    match e with
    | ConvEvent.runVgm _ _ => true
    | ConvEvent.runFfmpeg _ _ => true
    | ConvEvent.unlinkWav _ => false)

/- ### The verifier (verify_downloads.py) -/

structure VerifyReport where
  missing : Finset (List Char)
  extra : Finset (List Char)
  small_files : List (List Char × Nat)

/-- Embedding of the comparison part of `verify_downloads`: downloaded files
are given as (name, size) pairs; `missing`/`extra` are the two set
differences of `expected_set = {sanitize_filename(song) + ".brstm"}` and
`downloaded_set = {file names}`, and `small_files` keeps files of size
below 100000 bytes. -/
def verify_downloads (expected_songs : List (List Char))
    (files : List (List Char × Nat)) : VerifyReport :=
  let expected_set := (expected_songs.map (fun s => sanitize_filename s ++ brstmExt)).toFinset
  let downloaded_set := (files.map Prod.fst).toFinset
  { missing := expected_set \ downloaded_set,
    extra := downloaded_set \ expected_set,
    small_files := files.filter (fun f => decide (f.2 < 100000)) }

/- ### Concrete inputs used by counterexamples and witnesses -/

def fsEmpty : Fs := fun _ => none

def exSongA : Song :=
  { id := ("1").toList, name := ("A").toList, url := brstmUrlOf (("1").toList) }

def exSongB : Song :=
  { id := ("2").toList, name := ("B").toList, url := brstmUrlOf (("2").toList) }

def exRespOk : HttpResp :=
  { contentType := ("audio/brstm").toList, body := ("BRSTMDATA").toList }

def exEnvOk : DlEnv := { fetch := fun _ => Except.ok exRespOk, rand := 0 }

def exEnvErr : DlEnv := { fetch := fun _ => Except.error (("boom").toList), rand := 0 }

def exRespHtmlPage : HttpResp := { contentType := [], body := ("html").toList }

def exEnvHtmlPage : DlEnv := { fetch := fun _ => Except.ok exRespHtmlPage, rand := 0 }

def exRow1 : List Char := ("<tr id=\"s1\"><td><a href=\"/song/1\">A</a>").toList

def exRow2 : List Char := ("<tr id=\"s2\"><td><a href=\"/song/2\">B</a>").toList

def exHtmlWithRemixes : List Char := exRow1 ++ remixMarker ++ exRow2

def exNameQ : List Char := ("Title?").toList

def exNameS : List Char := ("Title*").toList

def exSongQ : Song := { id := ("3").toList, name := exNameQ, url := brstmUrlOf (("3").toList) }

def exSongS : Song := { id := ("4").toList, name := exNameS, url := brstmUrlOf (("4").toList) }

def exFsColl : Fs := fsWrite fsEmpty (dlFilePath outputDirName exNameQ) (("data").toList)

def exConvEnvOk : ConvEnv :=
  { vgmExit := fun _ _ => 0, ffmpegExit := fun _ _ => 0, wavLeftover := false }

def exConvEnvVgmFail : ConvEnv :=
  { vgmExit := fun _ _ => 1, ffmpegExit := fun _ _ => 0, wavLeftover := false }

def exConvEnvFfmpegFail : ConvEnv :=
  { vgmExit := fun _ _ => 0, ffmpegExit := fun _ _ => 1, wavLeftover := false }

def exBrstmPath : List Char := ("mkw_music_brstm/A.brstm").toList

/- ### Lemmas about `sanitize_filename` -/

theorem mem_foldl_replace (L : List Char) (s : List Char) (x : Char)
    (hx : x ∈ L.foldl (fun acc c => replaceAllChar c '_' acc) s) :
    x = '_' ∨ (x ∈ s ∧ x ∉ L) := by
  induction L generalizing s with
  | nil => exact Or.inr ⟨hx, List.not_mem_nil x⟩
  | cons c L ih =>
    rcases ih (replaceAllChar c '_' s) hx with h | ⟨hmem, hnot⟩
    · exact Or.inl h
    · rcases List.mem_map.mp hmem with ⟨y, hy, hyx⟩
      by_cases hyc : y = c
      · subst hyc
        simp at hyx
        exact Or.inl hyx.symm
      · simp [hyc] at hyx
        subst hyx
        refine Or.inr ⟨hy, ?_⟩
        intro hmem2
        rcases List.mem_cons.mp hmem2 with h | h
        · exact hyc h
        · exact hnot h

theorem mem_stripTrailing {x : Char} : ∀ {l : List Char},
    x ∈ stripTrailing l → x ∈ l := by
  intro l
  induction l with
  | nil => intro h; exact h
  | cons c rest ih =>
    intro h
    simp only [stripTrailing] at h
    by_cases hc : stripTrailing rest = [] ∧ isPySpace c = true
    · rw [if_pos (by simp [hc.1, hc.2])] at h
      cases h
    · rw [if_neg (by simpa using hc)] at h
      rcases List.mem_cons.mp h with h | h
      · exact h ▸ List.mem_cons_self x rest
      · exact List.mem_cons_of_mem c (ih h)

theorem mem_pyStrip {x : Char} {l : List Char} (h : x ∈ pyStrip l) : x ∈ l :=
  (List.dropWhile_sublist isPySpace).subset (mem_stripTrailing h)

theorem mem_sanitize_not_invalid {x : Char} {s : List Char}
    (h : x ∈ sanitize_filename s) : x ∉ invalidChars := by
  have hx := mem_pyStrip h
  rcases mem_foldl_replace invalidChars s x hx with h1 | ⟨_, h2⟩
  · subst h1
    decide
  · exact h2

theorem head_dropWhile_not_space (l : List Char) {c : Char}
    (h : (l.dropWhile isPySpace).head? = some c) : isPySpace c = false := by
  induction l with
  | nil => cases h
  | cons a rest ih =>
    by_cases ha : isPySpace a
    · rw [List.dropWhile_cons_of_pos (by simpa using ha)] at h
      exact ih h
    · rw [List.dropWhile_cons_of_neg (by simpa using ha)] at h
      simp at h
      rw [← h]
      simpa using ha

theorem head_stripTrailing (l : List Char) :
    stripTrailing l = [] ∨ (stripTrailing l).head? = l.head? := by
  cases l with
  | nil => exact Or.inl rfl
  | cons c rest =>
    simp only [stripTrailing]
    by_cases hc : stripTrailing rest = [] ∧ isPySpace c = true
    · rw [if_pos (by simp [hc.1, hc.2])]
      exact Or.inl rfl
    · rw [if_neg (by simpa using hc)]
      exact Or.inr rfl

theorem getLast_stripTrailing : ∀ (l : List Char) {c : Char},
    (stripTrailing l).getLast? = some c → isPySpace c = false := by
  intro l
  induction l with
  | nil => intro c h; cases h
  | cons a rest ih =>
    intro c h
    simp only [stripTrailing] at h
    by_cases hc : stripTrailing rest = [] ∧ isPySpace a = true
    · rw [if_pos (by simp [hc.1, hc.2])] at h
      cases h
    · rw [if_neg (by simpa using hc)] at h
      cases hr : stripTrailing rest with
      | nil =>
        rw [hr] at h
        simp at h
        have ha : isPySpace a = false := by
          rcases Decidable.em (isPySpace a = true) with hs | hs
          · exact absurd ⟨hr, hs⟩ hc
          · simpa using hs
        rw [← h]
        exact ha
      | cons b t =>
        rw [hr, List.getLast?_cons_cons] at h
        have := ih (c := c)
        rw [hr] at this
        exact this h

theorem dropWhile_eq_self_of_head (t : List Char)
    (h : ∀ c, t.head? = some c → isPySpace c = false) :
    t.dropWhile isPySpace = t := by
  cases t with
  | nil => rfl
  | cons a rest =>
    have := h a rfl
    rw [List.dropWhile_cons_of_neg (by simp [this])]

theorem stripTrailing_eq_self_of_getLast : ∀ (t : List Char),
    (∀ c, t.getLast? = some c → isPySpace c = false) → stripTrailing t = t := by
  intro t
  induction t with
  | nil => intro _; rfl
  | cons a rest ih =>
    intro h
    simp only [stripTrailing]
    cases rest with
    | nil =>
      have := h a rfl
      simp [stripTrailing, this]
    | cons b t2 =>
      have hrest : stripTrailing (b :: t2) = b :: t2 := by
        apply ih
        intro c hc
        apply h
        rw [List.getLast?_cons_cons]
        exact hc
      rw [hrest]
      simp

theorem head_sanitize_not_space {s : List Char} {c : Char}
    (h : (sanitize_filename s).head? = some c) : isPySpace c = false := by
  unfold sanitize_filename pyStrip at h
  rcases head_stripTrailing ((removeInvalid s).dropWhile isPySpace) with he | hh
  · rw [he] at h; cases h
  · rw [hh] at h
    exact head_dropWhile_not_space (removeInvalid s) h

theorem getLast_sanitize_not_space {s : List Char} {c : Char}
    (h : (sanitize_filename s).getLast? = some c) : isPySpace c = false :=
  getLast_stripTrailing ((removeInvalid s).dropWhile isPySpace) h

theorem foldl_replace_eq_self (L : List Char) (s : List Char)
    (h : ∀ x ∈ s, x ∉ L) :
    L.foldl (fun acc c => replaceAllChar c '_' acc) s = s := by
  induction L generalizing s with
  | nil => rfl
  | cons c L ih =>
    have hstep : replaceAllChar c '_' s = s := by
      unfold replaceAllChar
      have hcongr : List.map (fun x => if x = c then '_' else x) s = List.map id s := by
        apply List.map_congr_left
        intro x hx
        have hxc : x ≠ c := by
          intro hxc
          exact h x hx (hxc ▸ List.mem_cons_self c L)
        simp [hxc]
      rw [hcongr, List.map_id]
    rw [List.foldl_cons, hstep]
    exact ih s (fun x hx => fun hmem => h x hx (List.mem_cons_of_mem c hmem))

theorem sanitize_idempotent (s : List Char) :
    sanitize_filename (sanitize_filename s) = sanitize_filename s := by
  have h1 : removeInvalid (sanitize_filename s) = sanitize_filename s := by
    unfold removeInvalid
    exact foldl_replace_eq_self invalidChars (sanitize_filename s)
      (fun x hx => mem_sanitize_not_invalid hx)
  have h2 : (sanitize_filename s).dropWhile isPySpace = sanitize_filename s :=
    dropWhile_eq_self_of_head (sanitize_filename s)
      (fun c hc => head_sanitize_not_space hc)
  have h3 : stripTrailing (sanitize_filename s) = sanitize_filename s :=
    stripTrailing_eq_self_of_getLast (sanitize_filename s)
      (fun c hc => getLast_sanitize_not_space hc)
  calc sanitize_filename (sanitize_filename s)
      = pyStrip (removeInvalid (sanitize_filename s)) := rfl
    _ = pyStrip (sanitize_filename s) := by rw [h1]
    _ = stripTrailing ((sanitize_filename s).dropWhile isPySpace) := rfl
    _ = stripTrailing (sanitize_filename s) := by rw [h2]
    _ = sanitize_filename s := h3

/-- Claim C10: for every input string `s`, `sanitize_filename s` contains none
of the characters `< > : " / \ | ? *`, has no leading and no trailing
whitespace character, and `sanitize_filename` is idempotent. -/
theorem C10_sanitize_clean_and_idempotent (s : List Char) :
    ((sanitize_filename s).all (fun c => !(invalidChars.contains c)) = true)
    ∧ (((sanitize_filename s).take 1).all (fun c => !(isPySpace c)) = true)
    ∧ (((sanitize_filename s).reverse.take 1).all (fun c => !(isPySpace c)) = true)
    ∧ sanitize_filename (sanitize_filename s) = sanitize_filename s := by
  refine ⟨?_, ?_, ?_, sanitize_idempotent s⟩
  · rw [List.all_eq_true]
    intro c hc
    have hnot := mem_sanitize_not_invalid hc
    simpa [List.elem_iff] using hnot
  · cases hh : sanitize_filename s with
    | nil => simp
    | cons a t =>
      have : (sanitize_filename s).head? = some a := by rw [hh]; rfl
      have ha := head_sanitize_not_space this
      simp [ha]
  · cases hh : (sanitize_filename s).reverse with
    | nil => simp
    | cons a t =>
      have hl : (sanitize_filename s).getLast? = some a := by
        rw [← List.head?_reverse, hh]
        rfl
      have ha := getLast_sanitize_not_space hl
      simp [ha]

/- ### Helper lemmas for the driver loops -/

theorem downloadLoop_length (env : DlEnv) : ∀ (songs : List Song) (fs : Fs),
    (downloadLoop env songs fs).1.length = songs.length := by
  intro songs
  induction songs with
  | nil => intro fs; rfl
  | cons s rest ih =>
    intro fs
    simp [downloadLoop, ih]

/- ### Claim C1 -/

/-- Claim C1: an item whose output file already exists is skipped on re-run.
`download_song` returns the Skipped status with no HTTP request and no
filesystem change, and every task submitted by `convert_files_parallel` has an
output path with no existing file, so an input whose `.m4a` output exists is
never submitted and its output file is untouched. -/
theorem C1_existing_outputs_skipped :
    (∀ (song : Song) (output_dir : List Char) (env : DlEnv) (fs : Fs),
      (fs (dlFilePath output_dir song.name)).isSome = true →
      download_song song output_dir env fs
        = { status := skippedMsg song.name, fs := fs, events := [] }) ∧
    (∀ (brstm_files : List (List Char)) (fs : Fs) (cpu_count : Nat),
      ∀ pr ∈ (convert_files_parallel brstm_files fs cpu_count).tasks,
        fs pr.2 = none) := by
  constructor
  · intro song output_dir env fs h
    unfold download_song
    rw [if_pos h]
  · intro files fs cpu pr hpr
    simp only [convert_files_parallel] at hpr
    induction files with
    | nil => cases hpr
    | cons p rest ih =>
      simp only [convTasks] at hpr
      by_cases hex : (fs (alacOutPath p)).isSome
      · rw [if_pos hex] at hpr
        exact ih hpr
      · rw [if_neg hex] at hpr
        rcases List.mem_cons.mp hpr with h | h
        · rw [h]
          exact Option.not_isSome_iff_eq_none.mp hex
        · exact ih h

/-- Witness for C1: a concrete song whose `.brstm` file is on disk is skipped
untouched, and a concrete submitted conversion task has no existing output. -/
theorem C1_existing_outputs_skipped_witness :
    ((exFsColl (dlFilePath outputDirName exSongQ.name)).isSome = true
      ∧ download_song exSongQ outputDirName exEnvOk exFsColl
          = { status := skippedMsg exSongQ.name, fs := exFsColl, events := [] })
    ∧ ((exBrstmPath, alacOutPath exBrstmPath)
          ∈ (convert_files_parallel (exBrstmPath :: []) fsEmpty 8).tasks
        ∧ fsEmpty (exBrstmPath, alacOutPath exBrstmPath).2 = none) := by
  refine ⟨⟨by decide, ?_⟩, ⟨by decide, ?_⟩⟩
  · exact C1_existing_outputs_skipped.1 exSongQ outputDirName exEnvOk exFsColl (by decide)
  · exact C1_existing_outputs_skipped.2 (exBrstmPath :: []) fsEmpty 8
      (exBrstmPath, alacOutPath exBrstmPath) (by decide)

/- ### Claim C2 -/

/-- Claim C2 counterexample: on a concrete page containing "Remixes / Fanmade"
followed by a further song row, the two `fetch_song_data` functions produce
different identifier/name lists — the downloader cuts the page at the marker,
the URL-list generator does not — so they are not equivalent on every input
page. -/
theorem C2_scrapers_differ_counterexample :
    dlIdNames (DownloadMkwMusic.fetch_song_data exHtmlWithRemixes)
      ≠ genIdNames (GenerateDownloadUrls.fetch_song_data exHtmlWithRemixes) := by
  decide

/-- Claim C2 (amended): the two scrapes produce the same list of song
identifiers and names on every page that does not contain the marker
"Remixes / Fanmade"; on a page containing the marker the downloader only
scrapes the part before it. -/
theorem C2_scrapers_agree_without_marker (html : List Char)
    (h : isSubstring remixMarker html = false) :
    dlIdNames (DownloadMkwMusic.fetch_song_data html)
      = genIdNames (GenerateDownloadUrls.fetch_song_data html) := by
  unfold dlIdNames genIdNames DownloadMkwMusic.fetch_song_data
    GenerateDownloadUrls.fetch_song_data
  simp [h, List.map_map]

/-- Witness for the amended C2 on a concrete marker-free page. -/
theorem C2_scrapers_agree_without_marker_witness :
    isSubstring remixMarker exRow1 = false
    ∧ dlIdNames (DownloadMkwMusic.fetch_song_data exRow1)
        = genIdNames (GenerateDownloadUrls.fetch_song_data exRow1) :=
  ⟨by decide, C2_scrapers_agree_without_marker exRow1 (by decide)⟩

/- ### Claim C3 -/

/-- Claim C3: failures are caught per item and turned into a returned Failed
status, and the run continues without retrying.  An exception on either HTTP
request makes `download_song` return the Failed string; a non-zero exit of
vgmstream-cli or of ffmpeg makes `convert_file` return the Failed string; the
driver produces exactly one printed result per song (no retry) and processes
the tail of the list whatever the first item's outcome. -/
theorem C3_per_item_failure_caught :
    (∀ (song : Song) (output_dir : List Char) (env : DlEnv) (fs : Fs) (e : List Char),
      (fs (dlFilePath output_dir song.name)).isSome = false →
      env.fetch (songPageUrlOf song.id) = Except.error e →
      (download_song song output_dir env fs).status = failedExnMsg song.name e) ∧
    (∀ (song : Song) (output_dir : List Char) (env : DlEnv) (fs : Fs)
        (r : HttpResp) (e : List Char),
      (fs (dlFilePath output_dir song.name)).isSome = false →
      env.fetch (songPageUrlOf song.id) = Except.ok r →
      env.fetch song.url = Except.error e →
      (download_song song output_dir env fs).status = failedExnMsg song.name e) ∧
    (∀ (brstm_path output_path : List Char) (i n : Nat) (env : ConvEnv),
      env.vgmExit (withSuffix output_path wavExt) brstm_path ≠ 0 →
      (convert_file brstm_path output_path i n env).1
        = convFailedMsg i n (stemOf brstm_path)) ∧
    (∀ (brstm_path output_path : List Char) (i n : Nat) (env : ConvEnv),
      env.ffmpegExit (withSuffix output_path wavExt) output_path ≠ 0 →
      (convert_file brstm_path output_path i n env).1
        = convFailedMsg i n (stemOf brstm_path)) ∧
    (∀ (songs : List Song) (env : DlEnv) (fs : Fs),
      (download_all_songs songs env fs).results.length = songs.length) ∧
    (∀ (song : Song) (rest : List Song) (env : DlEnv) (fs : Fs),
      (download_all_songs (song :: rest) env fs).results
        = (download_song song outputDirName env fs).status
          :: (download_all_songs rest env
                ((download_song song outputDirName env fs).fs)).results) := by
  refine ⟨?_, ?_, ?_, ?_, ?_, ?_⟩
  · intro song output_dir env fs e hex hpage
    simp [download_song, hex, hpage]
  · intro song output_dir env fs r e hex hpage hurl
    simp [download_song, hex, hpage, hurl]
  · intro brstm_path output_path i n env hvgm
    simp [convert_file, hvgm]
  · intro brstm_path output_path i n env hff
    by_cases hvgm : env.vgmExit (withSuffix output_path wavExt) brstm_path = 0
    · simp [convert_file, hvgm, hff]
    · simp [convert_file, hvgm]
  · intro songs env fs
    simpa [download_all_songs] using downloadLoop_length env songs fs
  · intro song rest env fs
    rfl

/-- Witness for C3 at concrete failing environments. -/
theorem C3_per_item_failure_caught_witness :
    ((fsEmpty (dlFilePath outputDirName exSongA.name)).isSome = false
      ∧ (download_song exSongA outputDirName exEnvErr fsEmpty).status
          = failedExnMsg exSongA.name (("boom").toList))
    ∧ (exConvEnvVgmFail.vgmExit (withSuffix (alacOutPath exBrstmPath) wavExt) exBrstmPath ≠ 0
      ∧ (convert_file exBrstmPath (alacOutPath exBrstmPath) 1 2 exConvEnvVgmFail).1
          = convFailedMsg 1 2 (stemOf exBrstmPath))
    ∧ (download_all_songs (exSongA :: exSongB :: []) exEnvErr fsEmpty).results.length = 2 := by
  refine ⟨⟨by decide, ?_⟩, ⟨by decide, ?_⟩, ?_⟩
  · exact C3_per_item_failure_caught.1 exSongA outputDirName exEnvErr fsEmpty
      (("boom").toList) (by decide) rfl
  · exact C3_per_item_failure_caught.2.2.1 exBrstmPath (alacOutPath exBrstmPath) 1 2
      exConvEnvVgmFail (by decide)
  · simpa using C3_per_item_failure_caught.2.2.2.2.1 (exSongA :: exSongB :: [])
      exEnvErr fsEmpty

/- ### Claim C4 -/

/-- Claim C4: `verify_downloads` reports as missing exactly the sanitized
expected filenames (name + ".brstm") absent from the downloaded names, as
extra exactly the downloaded names absent from the sanitized expected
filenames, and flags a downloaded file as suspiciously small exactly when its
size is strictly below 100000 bytes. -/
theorem C4_verify_reports_exact (expected_songs : List (List Char))
    (files : List (List Char × Nat)) (x : List Char) (f : List Char × Nat) :
    ((x ∈ (verify_downloads expected_songs files).missing
        ↔ (∃ s ∈ expected_songs, sanitize_filename s ++ brstmExt = x)
          ∧ x ∉ files.map Prod.fst))
    ∧ ((x ∈ (verify_downloads expected_songs files).extra
        ↔ x ∈ files.map Prod.fst
          ∧ ¬∃ s ∈ expected_songs, sanitize_filename s ++ brstmExt = x))
    ∧ ((f ∈ (verify_downloads expected_songs files).small_files
        ↔ f ∈ files ∧ f.2 < 100000)) := by
  refine ⟨?_, ?_, ?_⟩
  · simp [verify_downloads, Finset.mem_sdiff, List.mem_toFinset, List.mem_map]
  · simp [verify_downloads, Finset.mem_sdiff, List.mem_toFinset, List.mem_map]
  · simp [verify_downloads, List.mem_filter]

/- ### Claim C5 -/

/-- Claim C5 counterexample: the audio-file fetches of two concrete songs are
sent with different referrers (each song's own page URL), so the audio fetch
referrer is not one fixed value. -/
theorem C5_referrer_not_fixed_counterexample :
    audioReferers (download_song exSongA outputDirName exEnvOk fsEmpty) exSongA.url
        = (songPageUrlOf exSongA.id :: [])
    ∧ audioReferers (download_song exSongB outputDirName exEnvOk fsEmpty) exSongB.url
        = (songPageUrlOf exSongB.id :: [])
    ∧ songPageUrlOf exSongA.id ≠ songPageUrlOf exSongB.id := by
  refine ⟨by decide, by decide, by decide⟩

/-- Claim C5 (amended): every audio-file fetch is sent with the fixed
user-agent and with the referrer set to that song's own page URL (fixed given
the song, but varying across songs), and the randomized delay slept before
each file download is `uniform(1.0, 3.0)`, which lies in the closed interval
from 1.0 to 3.0. -/
theorem C5_audio_fetch_headers_and_delay (song : Song) (output_dir : List Char)
    (env : DlEnv) (fs : Fs) (r : HttpResp)
    (hex : (fs (dlFilePath output_dir song.name)).isSome = false)
    (hpage : env.fetch (songPageUrlOf song.id) = Except.ok r)
    (h0 : 0 ≤ env.rand) (h1 : env.rand < 1) :
    (download_song song output_dir env fs).events.take 3
      = (Event.request { url := songPageUrlOf song.id, referer := gamePageUrl,
                         userAgent := fixedUserAgent }
        :: Event.sleep (pyUniform 1 3 env.rand)
        :: Event.request { url := song.url, referer := songPageUrlOf song.id,
                           userAgent := fixedUserAgent } :: [])
    ∧ 1 ≤ pyUniform 1 3 env.rand ∧ pyUniform 1 3 env.rand ≤ 3 := by
  refine ⟨?_, ?_, ?_⟩
  · cases hurl : env.fetch song.url with
    | error e => simp [download_song, hex, hpage, hurl]
    | ok resp =>
      simp [download_song, hex, hpage, hurl]
      split
      · rfl
      · split
        · rfl
        · rfl
  · unfold pyUniform
    linarith
  · unfold pyUniform
    linarith

/-- Witness for the amended C5 at a concrete song and environment. -/
theorem C5_audio_fetch_headers_and_delay_witness :
    (download_song exSongA outputDirName exEnvOk fsEmpty).events.take 3
      = (Event.request { url := songPageUrlOf exSongA.id, referer := gamePageUrl,
                         userAgent := fixedUserAgent }
        :: Event.sleep (pyUniform 1 3 exEnvOk.rand)
        :: Event.request { url := exSongA.url, referer := songPageUrlOf exSongA.id,
                           userAgent := fixedUserAgent } :: [])
    ∧ 1 ≤ pyUniform 1 3 exEnvOk.rand ∧ pyUniform 1 3 exEnvOk.rand ≤ 3 :=
  C5_audio_fetch_headers_and_delay exSongA outputDirName exEnvOk fsEmpty exRespOk
    (by decide) rfl (by decide) (by decide)

/- ### Claim C6 -/

/-- Claim C6: `sanitize_filename` is not injective — the distinct names
"Title?" and "Title*" map to the same sanitized filename and hence to the same
output path — and no collision handling exists: with the first song's file on
disk, a second colliding song is simply reported as already downloaded. -/
theorem C6_sanitize_collision :
    exNameQ ≠ exNameS
    ∧ sanitize_filename exNameQ = sanitize_filename exNameS
    ∧ dlFilePath outputDirName exNameQ = dlFilePath outputDirName exNameS
    ∧ (download_song exSongS outputDirName exEnvOk exFsColl).status
        = skippedMsg exSongS.name := by
  refine ⟨by decide, by decide, by decide, by decide⟩

/- ### Claim C7 -/

/-- Claim C7 counterexample: when vgmstream-cli exits non-zero, the worker
task performs one external-process invocation, not exactly two — ffmpeg is
never invoked. -/
theorem C7_single_invocation_counterexample :
    (procInvocations
        (convert_file exBrstmPath (alacOutPath exBrstmPath) 1 2 exConvEnvVgmFail).2).length = 1
    ∧ ¬(procInvocations
        (convert_file exBrstmPath (alacOutPath exBrstmPath) 1 2 exConvEnvVgmFail).2).length = 2 :=
  ⟨by decide, by decide⟩

/-- Claim C7 (amended): the conversion pool is created with `max_workers`
equal to the CPU count, and each worker task performs at most two
external-process invocations in sequence: whenever vgmstream-cli succeeds,
the task performs exactly vgmstream-cli producing the intermediate WAV and
then ffmpeg transcoding the WAV to the ALAC output, after which the WAV is
deleted — whatever ffmpeg's own exit code, which only affects the returned
status; when vgmstream-cli exits non-zero, it is the only invocation and
ffmpeg is not run. -/
theorem C7_pool_size_and_two_invocations :
    (∀ (brstm_files : List (List Char)) (fs : Fs) (cpu_count : Nat),
      (convert_files_parallel brstm_files fs cpu_count).maxWorkers = cpu_count)
    ∧ (∀ (brstm_path output_path : List Char) (i n : Nat) (env : ConvEnv),
        env.vgmExit (withSuffix output_path wavExt) brstm_path = 0 →
        (convert_file brstm_path output_path i n env).2
          = (ConvEvent.runVgm (withSuffix output_path wavExt) brstm_path
            :: ConvEvent.runFfmpeg (withSuffix output_path wavExt) output_path
            :: ConvEvent.unlinkWav (withSuffix output_path wavExt) :: []))
    ∧ (∀ (brstm_path output_path : List Char) (i n : Nat) (env : ConvEnv),
        env.vgmExit (withSuffix output_path wavExt) brstm_path ≠ 0 →
        procInvocations (convert_file brstm_path output_path i n env).2
          = (ConvEvent.runVgm (withSuffix output_path wavExt) brstm_path :: [])) := by
  refine ⟨?_, ?_, ?_⟩
  · intro files fs cpu
    rfl
  · intro brstm_path output_path i n env hvgm
    by_cases hff : env.ffmpegExit (withSuffix output_path wavExt) output_path = 0
    · simp [convert_file, hvgm, hff]
    · simp [convert_file, hvgm, hff]
  · intro brstm_path output_path i n env hvgm
    by_cases hleft : env.wavLeftover
    · simp [convert_file, hvgm, hleft, procInvocations]
    · simp [convert_file, hvgm, hleft, procInvocations]

/-- Witness for the amended C7 at concrete inputs, exercising the
both-succeed, ffmpeg-fails, and vgmstream-fails cases. -/
theorem C7_pool_size_and_two_invocations_witness :
    (convert_files_parallel (exBrstmPath :: []) fsEmpty 8).maxWorkers = 8
    ∧ (convert_file exBrstmPath (alacOutPath exBrstmPath) 1 2 exConvEnvOk).2
        = (ConvEvent.runVgm (withSuffix (alacOutPath exBrstmPath) wavExt) exBrstmPath
          :: ConvEvent.runFfmpeg (withSuffix (alacOutPath exBrstmPath) wavExt)
              (alacOutPath exBrstmPath)
          :: ConvEvent.unlinkWav (withSuffix (alacOutPath exBrstmPath) wavExt) :: [])
    ∧ (convert_file exBrstmPath (alacOutPath exBrstmPath) 1 2 exConvEnvFfmpegFail).2
        = (ConvEvent.runVgm (withSuffix (alacOutPath exBrstmPath) wavExt) exBrstmPath
          :: ConvEvent.runFfmpeg (withSuffix (alacOutPath exBrstmPath) wavExt)
              (alacOutPath exBrstmPath)
          :: ConvEvent.unlinkWav (withSuffix (alacOutPath exBrstmPath) wavExt) :: [])
    ∧ procInvocations
        (convert_file exBrstmPath (alacOutPath exBrstmPath) 1 2 exConvEnvVgmFail).2
        = (ConvEvent.runVgm (withSuffix (alacOutPath exBrstmPath) wavExt) exBrstmPath :: []) := by
  refine ⟨C7_pool_size_and_two_invocations.1 (exBrstmPath :: []) fsEmpty 8, ?_, ?_, ?_⟩
  · exact C7_pool_size_and_two_invocations.2.1 exBrstmPath (alacOutPath exBrstmPath) 1 2
      exConvEnvOk (by decide)
  · exact C7_pool_size_and_two_invocations.2.1 exBrstmPath (alacOutPath exBrstmPath) 1 2
      exConvEnvFfmpegFail (by decide)
  · exact C7_pool_size_and_two_invocations.2.2 exBrstmPath (alacOutPath exBrstmPath) 1 2
      exConvEnvVgmFail (by decide)

/- ### Claim C8 -/

/-- Claim C8: `download_all_songs` has a `max_workers` parameter defaulting to
1, and `main` calls it without overriding the default, so the call made by
`main` is the call with one worker and its pool size is 1. -/
theorem C8_default_single_worker (songs : List Song) (env : DlEnv) (fs : Fs) :
    main_download_call songs env fs = download_all_songs songs env fs 1
    ∧ (main_download_call songs env fs).maxWorkers = 1 :=
  ⟨rfl, rfl⟩

/- ### Claim C9 -/

/-- Claim C9: when the written file is smaller than 1000 bytes and its
content, lowercased, contains "html", `download_song` deletes the file and
returns the Failed (error page) status, so no output file remains for that
song. -/
theorem C9_html_error_page_deleted (song : Song) (output_dir : List Char)
    (env : DlEnv) (fs : Fs) (r1 r2 : HttpResp)
    (hex : (fs (dlFilePath output_dir song.name)).isSome = false)
    (hpage : env.fetch (songPageUrlOf song.id) = Except.ok r1)
    (hurl : env.fetch song.url = Except.ok r2)
    (hbot : (isSubstring ctTextHtml r2.contentType
        && (isSubstring sniffUnusual (r2.body.take 500)
            || isSubstring sniffRobot (r2.body.take 500))) = false)
    (hsmall : r2.body.length < 1000)
    (hhtml : isSubstring sniffHtml (r2.body.map Char.toLower) = true) :
    (download_song song output_dir env fs).status = errorPageMsg song.name
    ∧ (download_song song output_dir env fs).fs (dlFilePath output_dir song.name) = none := by
  have hbotP : ¬(isSubstring ctTextHtml r2.contentType = true
      ∧ (isSubstring sniffUnusual (List.take 500 r2.body) = true
        ∨ isSubstring sniffRobot (List.take 500 r2.body) = true)) := by
    intro hc
    rw [hc.1] at hbot
    simp at hbot
    rcases hc.2 with hb | hb <;> simp [hb] at hbot
  constructor
  · simp [download_song, hex, hpage, hurl, hbotP, hsmall, hhtml]
  · simp [download_song, hex, hpage, hurl, hbotP, hsmall, hhtml, fsDelete]

/-- Witness for C9: a concrete 4-byte "html" response file is deleted. -/
theorem C9_html_error_page_deleted_witness :
    (download_song exSongA outputDirName exEnvHtmlPage fsEmpty).status
        = errorPageMsg exSongA.name
    ∧ (download_song exSongA outputDirName exEnvHtmlPage fsEmpty).fs
        (dlFilePath outputDirName exSongA.name) = none :=
  C9_html_error_page_deleted exSongA outputDirName exEnvHtmlPage fsEmpty
    exRespHtmlPage exRespHtmlPage (by decide) rfl rfl (by decide) (by decide) (by decide)
